import Mathlib

/-!
Shallow embedding of the `app-error` Go package: the `CustomErr` template
(customError.go), the `AppError` composite and its fluent mutators, the
`GetAppErr` factory, and the context-carried `TraceMeta` log with its
`AddTraceLog` append protocol (context.go).

Modelling conventions:
- A Go `error` interface value is `Option GoErr`: `none` is the nil
  interface (calling `.Error()` on it panics), `some g` is a non-nil error
  whose `Error()` method returns `g.msg`.
- `*CustomErr` pointers are modelled explicitly as indices into a store
  `CEStore`, so that allocation freshness and aliasing are observable:
  `GetAppErr` writes `CustomErr: &CustomErr{}` and copies fields rather
  than storing the caller's pointer, and that difference matters for the
  copy-isolation property.
- A `context.Context` is `Option TraceSlot`: `none` is a nil context;
  otherwise the slot records what `ctx.Value(TraceMetaKey)` yields —
  nothing, a value of the wrong dynamic type, or a `*TraceMeta` (whose
  pointee is carried as a value; `AddTraceLog` mutates it in place, which
  we render by returning the updated context).
- Functions that can panic in Go return `Option`: `none` models the panic.
- The opaque `interface{}` metadata payload is modelled as `String`; the
  core never inspects it.
-/

/-- The observable content of a non-nil Go `error` value: its message. -/
structure GoErr where
  msg : String
deriving Repr, DecidableEq

/-- `CustomErr` (customError.go): code, message, retryable flag. -/
structure CustomErr where
  Code : String
  Message : String
  Retryable : Bool
deriving Repr, DecidableEq

/-- A heap of `CustomErr` cells; a `*CustomErr` is an index into it. -/
structure CEStore where
  cells : List CustomErr
deriving Repr, DecidableEq

/-- Allocate a fresh `CustomErr` cell, returning its pointer. -/
def CEStore.alloc (s : CEStore) (c : CustomErr) : Nat × CEStore :=
  (s.cells.length, ⟨s.cells ++ [c]⟩)

/-- Dereference a `*CustomErr`. Valid pointers are `< s.cells.length`. -/
def CEStore.read (s : CEStore) (p : Nat) : CustomErr :=
  s.cells.getD p ⟨"", "", false⟩

/-- Write through a `*CustomErr`. -/
def CEStore.write (s : CEStore) (p : Nat) (c : CustomErr) : CEStore :=
  ⟨s.cells.set p c⟩

/-- `GetCustomErr` (customError.go): allocates a new `CustomErr`. -/
def GetCustomErr (s : CEStore) (code msg : String) (retryable : Bool) :
    Nat × CEStore :=
  s.alloc { Code := code, Message := msg, Retryable := retryable }

/-- `TraceMeta` (context.go). The `IdentifierMappings` values are opaque
`interface{}` payloads, modelled as strings; the core never touches them. -/
structure TraceMeta where
  Trace : List String
  Error : List String
  IdentifierMappings : List (String × String)
deriving Repr, DecidableEq

/-- What looking up the well-known trace key in a non-nil context yields:
nothing (key absent, `ctx.Value` returns nil, so the type assertion to
`*TraceMeta` fails), a value of some other dynamic type (the assertion
also fails), or an installed `*TraceMeta`. -/
inductive TraceSlot where
  | absent
  | wrongShape
  | meta (tm : TraceMeta)
deriving Repr, DecidableEq

/-- A `context.Context` argument, which may itself be nil (`none`). -/
abbrev Context := Option TraceSlot

/-- `AddTraceLog` (context.go): nil context or failed type assertion
returns nil with no mutation; otherwise appends `errorMsg` to the
`Error` log of the carried `TraceMeta` and returns the mutated object.
The second component is the context after the in-place mutation. -/
def AddTraceLog (ctx : Context) (errorMsg : String) :
    Option TraceMeta × Context :=
  match ctx with
  | none => (none, none)
  | some .absent => (none, some .absent)
  | some .wrongShape => (none, some .wrongShape)
  | some (.meta tm) =>
      let tm2 := { tm with Error := tm.Error ++ [errorMsg] }
      (some tm2, some (.meta tm2))

/-- The opaque `interface{}` metadata payload attached to an `AppError`. -/
abbrev Metadata := String

/-- `AppError` (appError.go). `CustomErrPtr` is the `*CustomErr` field;
`data` is `none` when the `interface{}` payload is nil. -/
structure AppError where
  ActualErr : Option GoErr
  CustomErrPtr : Nat
  ErrorCodes : List String
  httpCode : Int
  data : Option Metadata
deriving Repr, DecidableEq

/-- `Error()`: empty string when the underlying error is nil, else the
underlying error's own message. -/
def AppError.Error (e : AppError) : String :=
  match e.ActualErr with
  | none => ""
  | some err => err.msg

/-- `GetErr()`: returns the underlying error. -/
def AppError.GetErr (e : AppError) : Option GoErr :=
  e.ActualErr

/-- `SetErr(err)`: replaces the underlying error and returns it. -/
def AppError.SetErr (e : AppError) (err : Option GoErr) :
    Option GoErr × AppError :=
  (err, { e with ActualErr := err })

/-- `GetMsg()`: reads `e.CustomErr.Message` through the pointer. -/
def AppError.GetMsg (e : AppError) (s : CEStore) : String :=
  (s.read e.CustomErrPtr).Message

/-- `SetMsg(msg)`: writes `e.CustomErr.Message` through the pointer and
returns the same `AppError`. -/
def AppError.SetMsg (e : AppError) (s : CEStore) (msg : String) :
    AppError × CEStore :=
  (e, s.write e.CustomErrPtr { s.read e.CustomErrPtr with Message := msg })

/-- `GetHTTPCode()`. -/
def AppError.GetHTTPCode (e : AppError) : Int :=
  e.httpCode

/-- `SetHTTPCode(httpCode)`: returns the same `AppError`. -/
def AppError.SetHTTPCode (e : AppError) (s : CEStore) (httpCode : Int) :
    AppError × CEStore :=
  ({ e with httpCode := httpCode }, s)

/-- `GetErrCode()`: reads the primary code `e.CustomErr.Code`. -/
def AppError.GetErrCode (e : AppError) (s : CEStore) : String :=
  (s.read e.CustomErrPtr).Code

/-- `SetErrCode(code)`: writes `e.CustomErr.Code` through the pointer,
without touching `ErrorCodes`, and returns the same `AppError`. -/
def AppError.SetErrCode (e : AppError) (s : CEStore) (code : String) :
    AppError × CEStore :=
  (e, s.write e.CustomErrPtr { s.read e.CustomErrPtr with Code := code })

/-- `GetErrCodes()`: the full code history. -/
def AppError.GetErrCodes (e : AppError) : List String :=
  e.ErrorCodes

/-- `AddErrCode(errorCode)`: no-op on the empty string; otherwise sets
`e.CustomErr.Code` and appends to `ErrorCodes`. -/
def AppError.AddErrCode (e : AppError) (s : CEStore) (errorCode : String) :
    AppError × CEStore :=
  if errorCode ≠ "" then
    ({ e with ErrorCodes := e.ErrorCodes ++ [errorCode] },
     s.write e.CustomErrPtr { s.read e.CustomErrPtr with Code := errorCode })
  else
    (e, s)

/-- `GetData()`. -/
def AppError.GetData (e : AppError) : Option Metadata :=
  e.data

/-- `SetData(data)`: wholesale replacement, returns the same `AppError`. -/
def AppError.SetData (e : AppError) (d : Option Metadata) : AppError :=
  { e with data := d }

/-- `GetAppErr(ctx, err, customErr, httpCode, meta...)` (appError.go).
The first step is `AddTraceLog(ctx, err.Error())`: when `err` is the nil
interface that method call panics, modelled by returning `none`.
Otherwise a fresh `&CustomErr\x7b\x7d` is allocated, `meta[0]` (if any)
becomes the payload, and a non-nil `customErr` has its `Code`/`Message`
copied into the fresh cell with `Code` pushed onto `ErrorCodes`. Returns
the new `AppError`, the store after allocation, and the context after the
trace append. -/
def GetAppErr (ctx : Context) (err : Option GoErr) (customErr : Option Nat)
    (httpCode : Int) (meta : List Metadata) (s : CEStore) :
    Option (AppError × CEStore × Context) :=
  match err with
  | none => none
  | some g =>
      let ctx2 := (AddTraceLog ctx g.msg).2
      let ps := s.alloc { Code := "", Message := "", Retryable := false }
      let appErr : AppError :=
        { ActualErr := some g
          CustomErrPtr := ps.1
          ErrorCodes := []
          httpCode := httpCode
          data := meta.head? }
      match customErr with
      | none => some (appErr, ps.2, ctx2)
      | some pd =>
          let d := ps.2.read pd
          let s2 := ps.2.write ps.1
            { ps.2.read ps.1 with Code := d.Code, Message := d.Message }
          some ({ appErr with ErrorCodes := appErr.ErrorCodes ++ [d.Code] },
                s2, ctx2)

/-! ### Post-construction mutation sequences (§4.2)

A sequence of fluent mutator calls on one `AppError` is a list of `AppOp`
applied in order; the store is threaded because `SetMsg`, `SetErrCode`
and `AddErrCode` write through the `*CustomErr` pointer. -/

/-- One §4.2 mutator call on an `AppError`. -/
inductive AppOp where
  | setErr (err : Option GoErr)
  | setMsg (msg : String)
  | setHTTPCode (c : Int)
  | setErrCode (code : String)
  | addErrCode (code : String)
  | setData (d : Option Metadata)
deriving Repr, DecidableEq

/-- Apply one mutator call. -/
def applyOp (es : AppError × CEStore) : AppOp → AppError × CEStore
  | .setErr err => ((es.1.SetErr err).2, es.2)
  | .setMsg m => es.1.SetMsg es.2 m
  | .setHTTPCode c => es.1.SetHTTPCode es.2 c
  | .setErrCode c => es.1.SetErrCode es.2 c
  | .addErrCode c => es.1.AddErrCode es.2 c
  | .setData d => (es.1.SetData d, es.2)

/-- Run a sequence of mutator calls in order. -/
def runOps (es : AppError × CEStore) (ops : List AppOp) : AppError × CEStore :=
  ops.foldl applyOp es

/-- Recognize the `SetErrCode` mutator. -/
def AppOp.isSetErrCode : AppOp → Bool
  | .setErrCode _ => true
  | _ => false

/-- The §3 coupling invariant: whenever `ErrorCodes` is non-empty, its
last element equals the current primary code `CustomErr.Code`. -/
def codeHistoryInv (es : AppError × CEStore) : Bool :=
  es.1.ErrorCodes.isEmpty ||
    (es.1.ErrorCodes.getLast? == some (es.1.GetErrCode es.2))

/-- The primary code one mutator call leaves behind, given it was `c0`
before the call: `setErrCode c` installs `c`, `addErrCode c` installs `c`
unless `c` is empty, no other mutator touches it. -/
def AppOp.codeWrite (c0 : String) : AppOp → String
  | .setErrCode c => c
  | .addErrCode c => if c = "" then c0 else c
  | _ => c0

/-- The most recently set or added primary code after a call sequence,
starting from initial code `c0`. -/
def lastCodeWrite (c0 : String) : List AppOp → String
  | [] => c0
  | op :: rest => lastCodeWrite (op.codeWrite c0) rest

/-! ### Store lemmas -/

theorem CEStore.alloc_fst (s : CEStore) (c : CustomErr) :
    (s.alloc c).1 = s.cells.length := rfl

theorem CEStore.length_alloc (s : CEStore) (c : CustomErr) :
    (s.alloc c).2.cells.length = s.cells.length + 1 := by
  simp [CEStore.alloc]

theorem CEStore.read_alloc_fresh (s : CEStore) (c : CustomErr) :
    (s.alloc c).2.read (s.alloc c).1 = c := by
  simp [CEStore.alloc, CEStore.read, List.getD_eq_getElem?_getD,
    List.getElem?_concat_length]

theorem CEStore.read_alloc_old (s : CEStore) (c : CustomErr) {p : Nat}
    (hp : p < s.cells.length) :
    (s.alloc c).2.read p = s.read p := by
  simp [CEStore.alloc, CEStore.read, List.getD_eq_getElem?_getD,
    List.getElem?_append, hp]

theorem CEStore.length_write (s : CEStore) (p : Nat) (c : CustomErr) :
    (s.write p c).cells.length = s.cells.length := by
  simp [CEStore.write]

theorem CEStore.read_write_self (s : CEStore) {p : Nat} (c : CustomErr)
    (hp : p < s.cells.length) :
    (s.write p c).read p = c := by
  simp [CEStore.write, CEStore.read, List.getD_eq_getElem?_getD,
    List.getElem?_set_self hp]

theorem CEStore.read_write_ne (s : CEStore) {p q : Nat} (c : CustomErr)
    (hpq : p ≠ q) :
    (s.write p c).read q = s.read q := by
  simp [CEStore.write, CEStore.read, List.getD_eq_getElem?_getD,
    List.getElem?_set_ne hpq]

/-! ### Mutator-step lemmas -/

theorem applyOp_valid (es : AppError × CEStore) (op : AppOp)
    (hv : es.1.CustomErrPtr < es.2.cells.length) :
    (applyOp es op).1.CustomErrPtr < (applyOp es op).2.cells.length := by
  cases op with
  | addErrCode c =>
      by_cases hc : c = "" <;>
        simp [applyOp, AppError.AddErrCode, hc, CEStore.length_write, hv]
  | _ =>
      simp [applyOp, AppError.SetErr, AppError.SetMsg, AppError.SetHTTPCode,
        AppError.SetErrCode, AppError.SetData, CEStore.length_write, hv]

theorem applyOp_getErrCode (es : AppError × CEStore) (op : AppOp)
    (hv : es.1.CustomErrPtr < es.2.cells.length) :
    (applyOp es op).1.GetErrCode (applyOp es op).2 =
      op.codeWrite (es.1.GetErrCode es.2) := by
  cases op with
  | setMsg m =>
      simp [applyOp, AppError.SetMsg, AppError.GetErrCode, AppOp.codeWrite,
        CEStore.read_write_self _ _ hv]
  | setErrCode c =>
      simp [applyOp, AppError.SetErrCode, AppError.GetErrCode, AppOp.codeWrite,
        CEStore.read_write_self _ _ hv]
  | addErrCode c =>
      by_cases hc : c = "" <;>
        simp [applyOp, AppError.AddErrCode, AppError.GetErrCode, hc,
          AppOp.codeWrite, CEStore.read_write_self _ _ hv]
  | _ =>
      simp [applyOp, AppError.SetErr, AppError.SetHTTPCode, AppError.SetData,
        AppError.GetErrCode, AppOp.codeWrite]

theorem applyOp_inv (es : AppError × CEStore) (op : AppOp)
    (hv : es.1.CustomErrPtr < es.2.cells.length)
    (hinv : codeHistoryInv es = true) (hop : op.isSetErrCode = false) :
    codeHistoryInv (applyOp es op) = true := by
  cases op with
  | setErrCode c => simp [AppOp.isSetErrCode] at hop
  | addErrCode c =>
      by_cases hc : c = ""
      · simpa [applyOp, AppError.AddErrCode, hc] using hinv
      · simp [applyOp, AppError.AddErrCode, hc, codeHistoryInv,
          AppError.GetErrCode, CEStore.read_write_self _ _ hv]
  | setMsg m =>
      simpa [codeHistoryInv, applyOp, AppError.SetMsg, AppError.GetErrCode,
        CEStore.read_write_self _ _ hv] using hinv
  | setErr err =>
      simpa [codeHistoryInv, applyOp, AppError.SetErr,
        AppError.GetErrCode] using hinv
  | setHTTPCode c =>
      simpa [codeHistoryInv, applyOp, AppError.SetHTTPCode,
        AppError.GetErrCode] using hinv
  | setData d =>
      simpa [codeHistoryInv, applyOp, AppError.SetData,
        AppError.GetErrCode] using hinv

theorem runOps_valid (ops : List AppOp) : ∀ es : AppError × CEStore,
    es.1.CustomErrPtr < es.2.cells.length →
    (runOps es ops).1.CustomErrPtr < (runOps es ops).2.cells.length := by
  induction ops with
  | nil => intro es hv; simpa [runOps] using hv
  | cons op rest ih =>
      intro es hv
      simpa [runOps, List.foldl_cons] using
        ih (applyOp es op) (applyOp_valid es op hv)

theorem runOps_getErrCode (ops : List AppOp) : ∀ es : AppError × CEStore,
    es.1.CustomErrPtr < es.2.cells.length →
    (runOps es ops).1.GetErrCode (runOps es ops).2 =
      lastCodeWrite (es.1.GetErrCode es.2) ops := by
  induction ops with
  | nil => intro es hv; simp [runOps, lastCodeWrite]
  | cons op rest ih =>
      intro es hv
      have h2 := ih (applyOp es op) (applyOp_valid es op hv)
      simp only [runOps, List.foldl_cons] at h2 ⊢
      rw [h2, applyOp_getErrCode es op hv, lastCodeWrite]

theorem runOps_inv (ops : List AppOp) : ∀ es : AppError × CEStore,
    es.1.CustomErrPtr < es.2.cells.length →
    codeHistoryInv es = true →
    (∀ op ∈ ops, op.isSetErrCode = false) →
    codeHistoryInv (runOps es ops) = true := by
  induction ops with
  | nil => intro es _ hinv _; simpa [runOps] using hinv
  | cons op rest ih =>
      intro es hv hinv hops
      have hop : op.isSetErrCode = false := hops op (List.mem_cons_self op rest)
      simpa [runOps, List.foldl_cons] using
        ih (applyOp es op) (applyOp_valid es op hv)
          (applyOp_inv es op hv hinv hop)
          (fun o ho => hops o (List.mem_cons_of_mem op ho))

/-! ### Construction lemmas -/

theorem getAppErr_some (ctx : Context) (g : GoErr) (customErr : Option Nat)
    (hc : Int) (meta : List Metadata) (s : CEStore)
    (e : AppError) (s1 : CEStore) (ctx1 : Context)
    (h : GetAppErr ctx (some g) customErr hc meta s = some (e, s1, ctx1)) :
    e.CustomErrPtr = s.cells.length ∧
    s1.cells.length = s.cells.length + 1 ∧
    codeHistoryInv (e, s1) = true := by
  cases customErr with
  | none =>
      simp only [GetAppErr, Option.some.injEq, Prod.mk.injEq] at h
      obtain ⟨he, hs, -⟩ := h
      subst he; subst hs
      exact ⟨rfl, CEStore.length_alloc s _, by simp [codeHistoryInv]⟩
  | some pd =>
      simp only [GetAppErr, Option.some.injEq, Prod.mk.injEq] at h
      obtain ⟨he, hs, -⟩ := h
      subst he; subst hs
      have hp : (s.alloc ⟨"", "", false⟩).1 <
          (s.alloc ⟨"", "", false⟩).2.cells.length := by
        rw [CEStore.alloc_fst, CEStore.length_alloc]; omega
      refine ⟨rfl, ?_, ?_⟩
      · rw [CEStore.length_write, CEStore.length_alloc]
      · simp [codeHistoryInv, AppError.GetErrCode,
          CEStore.read_write_self _ _ hp]

/-! ### Claim theorems -/

/-- C1: the constructor is not total on an absent underlying failure. At
the failing input — a nil underlying error — `GetAppErr` evaluates
`err.Error()` on the nil error interface before any nil guard can run,
which panics (modelled as `none`); the message-producing step does not
degrade to an empty string as the specification requires. -/
theorem getAppErr_nil_underlying_panics :
    GetAppErr (some (.meta ⟨[], [], []⟩)) none (some 0) 500 []
      ⟨[⟨"C", "M", false⟩]⟩ = none := rfl

/-- C5: `AddTraceLog` on a nil carrier, or on a carrier whose well-known
key does not hold a `TraceMeta`-shaped value, returns nil and performs no
mutation: the carrier comes back exactly as it was, and the wrong-shape
case yields the same absent outcome as the missing-carrier case. -/
theorem addTraceLog_silent_degrade (msg : String) :
    AddTraceLog none msg = (none, none) ∧
    AddTraceLog (some .absent) msg = (none, some .absent) ∧
    AddTraceLog (some .wrongShape) msg = (none, some .wrongShape) :=
  ⟨rfl, rfl, rfl⟩

/-- C7: message duality. `Error()` returns the empty string when the
underlying failure is absent and the underlying failure's message
verbatim otherwise, and `GetMsg` returns exactly `definition.message`,
unchanged by whatever the underlying failure is. -/
theorem message_duality (e : AppError) (s : CEStore) (g : GoErr) :
    ({ e with ActualErr := none } : AppError).Error = "" ∧
    ({ e with ActualErr := some g } : AppError).Error = g.msg ∧
    e.GetMsg s = (s.read e.CustomErrPtr).Message ∧
    ({ e with ActualErr := none } : AppError).GetMsg s = e.GetMsg s ∧
    ({ e with ActualErr := some g } : AppError).GetMsg s = e.GetMsg s :=
  ⟨rfl, rfl, rfl, rfl, rfl⟩

/-- C8: on a carrier holding a `TraceMeta` with an initially empty error
log, appending `a` then `b` leaves the log `[a, b]` in call order, each
call returning the now-mutated `TraceMeta`; in general one successful
call appends exactly its message to the end of the log. -/
theorem trace_append_order (t : List String) (im : List (String × String))
    (a b : String) (tm : TraceMeta) :
    (AddTraceLog (some (.meta ⟨t, [], im⟩)) a).1 = some ⟨t, [a], im⟩ ∧
    (AddTraceLog ((AddTraceLog (some (.meta ⟨t, [], im⟩)) a).2) b).1 =
      some ⟨t, [a, b], im⟩ ∧
    (AddTraceLog ((AddTraceLog (some (.meta ⟨t, [], im⟩)) a).2) b).2 =
      some (.meta ⟨t, [a, b], im⟩) ∧
    (AddTraceLog (some (.meta tm)) a).1 =
      some { tm with Error := tm.Error ++ [a] } :=
  ⟨rfl, rfl, rfl, rfl⟩

/-- C10: with no metadata argument the constructed error's `GetData` is
nil; with one or more, it is exactly the first supplied value, the rest
being discarded while construction still succeeds. -/
theorem metadata_first_only (ctx : Context) (g : GoErr)
    (customErr : Option Nat) (hc : Int) (meta : List Metadata)
    (s : CEStore) :
    (GetAppErr ctx (some g) customErr hc meta s).map
      (fun est => est.1.GetData) = some meta.head? := by
  cases customErr <;> simp [GetAppErr, AppError.GetData]

/-- C9: constructing with a nil `CustomErr` succeeds, and the resulting
error has empty-string primary code and message and an empty code
history; the definition cell is still allocated (the pointer is valid),
so definition-touching accessors never dereference nil. -/
theorem absent_definition_default (ctx : Context) (g : GoErr) (hc : Int)
    (meta : List Metadata) (s : CEStore) :
    ∃ e s1 ctx1,
      GetAppErr ctx (some g) none hc meta s = some (e, s1, ctx1) ∧
      e.GetErrCode s1 = "" ∧ e.GetMsg s1 = "" ∧ e.GetErrCodes = [] ∧
      e.CustomErrPtr < s1.cells.length := by
  refine ⟨_, _, _, rfl, ?_, ?_, rfl, ?_⟩
  · simp [AppError.GetErrCode, CEStore.read_alloc_fresh]
  · simp [AppError.GetMsg, CEStore.read_alloc_fresh]
  · simp [CEStore.alloc_fst, CEStore.length_alloc]

/-- C3: the `Retryable` flag of a template is never copied by the
constructor — only `Code` and `Message` are — so the constructed error's
own `CustomErr.Retryable` is the zero value `false` no matter what the
template's flag was. -/
theorem retryable_not_copied (ctx : Context) (g : GoErr) (pd : Nat)
    (hc : Int) (meta : List Metadata) (s : CEStore)
    (e : AppError) (s1 : CEStore) (ctx1 : Context)
    (h : GetAppErr ctx (some g) (some pd) hc meta s = some (e, s1, ctx1)) :
    (s1.read e.CustomErrPtr).Retryable = false := by
  simp only [GetAppErr, Option.some.injEq, Prod.mk.injEq] at h
  obtain ⟨he, hs, -⟩ := h
  subst he; subst hs
  have hp : (s.alloc ⟨"", "", false⟩).1 <
      (s.alloc ⟨"", "", false⟩).2.cells.length := by
    rw [CEStore.alloc_fst, CEStore.length_alloc]; omega
  simp [CEStore.read_write_self _ _ hp, CEStore.read_alloc_fresh]

/-- C3, instantiated: a template with `Retryable := true` still yields a
constructed error whose own flag reads back `false`. -/
theorem retryable_not_copied_witness :
    ((⟨[⟨"C", "M", true⟩, ⟨"C", "M", false⟩]⟩ : CEStore).read 1).Retryable
      = false :=
  retryable_not_copied (some .absent) ⟨"x"⟩ 0 503 [] ⟨[⟨"C", "M", true⟩]⟩
    ⟨some ⟨"x"⟩, 1, ["C"], 503, none⟩
    ⟨[⟨"C", "M", true⟩, ⟨"C", "M", false⟩]⟩ (some .absent) rfl

/-- C6: the constructor copies the template into a freshly allocated
cell, so writing to the template's cell after construction changes
neither `GetMsg` nor `GetErrCode` of the constructed error. -/
theorem definition_copy_isolation (ctx : Context) (g : GoErr) (pd : Nat)
    (hc : Int) (meta : List Metadata) (s : CEStore)
    (e : AppError) (s1 : CEStore) (ctx1 : Context) (c2 : CustomErr)
    (hpd : pd < s.cells.length)
    (h : GetAppErr ctx (some g) (some pd) hc meta s = some (e, s1, ctx1)) :
    e.GetMsg (s1.write pd c2) = e.GetMsg s1 ∧
    e.GetErrCode (s1.write pd c2) = e.GetErrCode s1 := by
  have hptr := (getAppErr_some ctx g (some pd) hc meta s e s1 ctx1 h).1
  have hne : pd ≠ e.CustomErrPtr := by rw [hptr]; omega
  exact ⟨by unfold AppError.GetMsg; rw [CEStore.read_write_ne _ _ hne],
         by unfold AppError.GetErrCode; rw [CEStore.read_write_ne _ _ hne]⟩

/-- C6, instantiated: overwriting the template cell with a different
code/message leaves the constructed error's message and primary code
reads unchanged. -/
theorem definition_copy_isolation_witness :
    (⟨some ⟨"x"⟩, 1, ["C"], 400, none⟩ : AppError).GetMsg
        ((⟨[⟨"C", "M", false⟩, ⟨"C", "M", false⟩]⟩ : CEStore).write 0
          ⟨"C2", "M2", true⟩) =
      (⟨some ⟨"x"⟩, 1, ["C"], 400, none⟩ : AppError).GetMsg
        ⟨[⟨"C", "M", false⟩, ⟨"C", "M", false⟩]⟩ ∧
    (⟨some ⟨"x"⟩, 1, ["C"], 400, none⟩ : AppError).GetErrCode
        ((⟨[⟨"C", "M", false⟩, ⟨"C", "M", false⟩]⟩ : CEStore).write 0
          ⟨"C2", "M2", true⟩) =
      (⟨some ⟨"x"⟩, 1, ["C"], 400, none⟩ : AppError).GetErrCode
        ⟨[⟨"C", "M", false⟩, ⟨"C", "M", false⟩]⟩ :=
  definition_copy_isolation (some .absent) ⟨"x"⟩ 0 400 []
    ⟨[⟨"C", "M", false⟩]⟩ ⟨some ⟨"x"⟩, 1, ["C"], 400, none⟩
    ⟨[⟨"C", "M", false⟩, ⟨"C", "M", false⟩]⟩ (some .absent)
    ⟨"C2", "M2", true⟩ (by decide) rfl

/-- C2 refuted as stated: `SetErrCode` is a §4.2 operation, and one call
to it after construction leaves a non-empty `ErrorCodes` whose last
element (the construction-time code) differs from the new primary code. -/
theorem code_evolution_counterexample :
    (GetAppErr (some .absent) (some ⟨"boom"⟩) (some 0) 500 []
        ⟨[⟨"A", "m", false⟩]⟩).all
      (fun est => codeHistoryInv (runOps (est.1, est.2.1) [.setErrCode "B"]))
      = false := by decide

/-- C2 (amended): after construction, `definition.code` always equals
the most recently set or added code; and for every sequence of §4.2
mutator calls containing no `SetErrCode`, whenever `ErrorCodes` is
non-empty its last element equals the current primary code.
(`SetErrCode` breaks that coupling: it replaces the primary code without
appending to the history.) -/
theorem code_evolution (ctx : Context) (g : GoErr) (customErr : Option Nat)
    (hc : Int) (meta : List Metadata) (s : CEStore)
    (e : AppError) (s1 : CEStore) (ctx1 : Context) (ops : List AppOp)
    (h : GetAppErr ctx (some g) customErr hc meta s = some (e, s1, ctx1)) :
    (runOps (e, s1) ops).1.GetErrCode (runOps (e, s1) ops).2 =
      lastCodeWrite (e.GetErrCode s1) ops ∧
    ((∀ op ∈ ops, op.isSetErrCode = false) →
      codeHistoryInv (runOps (e, s1) ops) = true) := by
  obtain ⟨hptr, hlen, hinv⟩ :=
    getAppErr_some ctx g customErr hc meta s e s1 ctx1 h
  have hv : (e, s1).1.CustomErrPtr < (e, s1).2.cells.length := by
    simp [hptr, hlen]
  exact ⟨runOps_getErrCode ops (e, s1) hv,
         fun hops => runOps_inv ops (e, s1) hv hinv hops⟩

/-- C2, instantiated: on a constructed error with initial code `A`, the
sequence `AddErrCode B; SetMsg mm` leaves primary code `B` and keeps the
history/primary coupling. -/
theorem code_evolution_witness :
    (runOps (⟨some ⟨"boom"⟩, 1, ["A"], 500, none⟩,
        ⟨[⟨"A", "m", false⟩, ⟨"A", "m", false⟩]⟩)
      [.addErrCode "B", .setMsg "mm"]).1.GetErrCode
      (runOps (⟨some ⟨"boom"⟩, 1, ["A"], 500, none⟩,
          ⟨[⟨"A", "m", false⟩, ⟨"A", "m", false⟩]⟩)
        [.addErrCode "B", .setMsg "mm"]).2 = "B" ∧
    codeHistoryInv (runOps (⟨some ⟨"boom"⟩, 1, ["A"], 500, none⟩,
        ⟨[⟨"A", "m", false⟩, ⟨"A", "m", false⟩]⟩)
      [.addErrCode "B", .setMsg "mm"]) = true :=
  ⟨(code_evolution (some .absent) ⟨"boom"⟩ (some 0) 500 []
      ⟨[⟨"A", "m", false⟩]⟩ ⟨some ⟨"boom"⟩, 1, ["A"], 500, none⟩
      ⟨[⟨"A", "m", false⟩, ⟨"A", "m", false⟩]⟩ (some .absent)
      [.addErrCode "B", .setMsg "mm"] rfl).1,
   (code_evolution (some .absent) ⟨"boom"⟩ (some 0) 500 []
      ⟨[⟨"A", "m", false⟩]⟩ ⟨some ⟨"boom"⟩, 1, ["A"], 500, none⟩
      ⟨[⟨"A", "m", false⟩, ⟨"A", "m", false⟩]⟩ (some .absent)
      [.addErrCode "B", .setMsg "mm"] rfl).2 (by decide)⟩

theorem runOps_addCodes (cs : List String) : ∀ (e : AppError) (s : CEStore),
    e.CustomErrPtr < s.cells.length → (∀ c ∈ cs, c ≠ "") →
    (runOps (e, s) (cs.map AppOp.addErrCode)).1.ErrorCodes =
      e.ErrorCodes ++ cs ∧
    (cs ≠ [] →
      some ((runOps (e, s) (cs.map AppOp.addErrCode)).1.GetErrCode
        (runOps (e, s) (cs.map AppOp.addErrCode)).2) = cs.getLast?) := by
  induction cs with
  | nil => intro e s hv hne; simp [runOps]
  | cons c cs ih =>
      intro e s hv hne
      have hc : c ≠ "" := hne c (List.mem_cons_self c cs)
      have step : applyOp (e, s) (.addErrCode c) =
          ({ e with ErrorCodes := e.ErrorCodes ++ [c] },
           s.write e.CustomErrPtr
             { s.read e.CustomErrPtr with Code := c }) := by
        simp [applyOp, AppError.AddErrCode, hc]
      have hv' : ({ e with ErrorCodes := e.ErrorCodes ++ [c] } :
          AppError).CustomErrPtr <
          (s.write e.CustomErrPtr
            { s.read e.CustomErrPtr with Code := c }).cells.length := by
        simpa [CEStore.length_write] using hv
      have ihr := ih _ _ hv' (fun x hx => hne x (List.mem_cons_of_mem c hx))
      have hrun : runOps (e, s) ((c :: cs).map AppOp.addErrCode) =
          runOps ({ e with ErrorCodes := e.ErrorCodes ++ [c] },
            s.write e.CustomErrPtr
              { s.read e.CustomErrPtr with Code := c })
            (cs.map AppOp.addErrCode) := by
        simp only [List.map_cons, runOps, List.foldl_cons, step]
      constructor
      · rw [hrun, ihr.1]; simp
      · intro _
        cases cs with
        | nil =>
            rw [hrun]
            simp [runOps, AppError.GetErrCode,
              CEStore.read_write_self _ _ hv]
        | cons c2 cs2 =>
            rw [hrun, ihr.2 (by simp), List.getLast?_cons_cons]

/-- C4: starting from any `AppError`, a run of `AddErrCode` calls with
non-empty codes `c1 … cn` appends exactly `[c1, …, cn]` to the code
history in order and leaves `cn` as the primary code; and `AddErrCode ""`
anywhere is a complete no-op on the error and the store. -/
theorem addErrCode_runs (e : AppError) (s : CEStore) (cs : List String)
    (hv : e.CustomErrPtr < s.cells.length)
    (hne : ∀ c ∈ cs, c ≠ "") :
    (runOps (e, s) (cs.map AppOp.addErrCode)).1.GetErrCodes =
      e.GetErrCodes ++ cs ∧
    (cs ≠ [] →
      some ((runOps (e, s) (cs.map AppOp.addErrCode)).1.GetErrCode
        (runOps (e, s) (cs.map AppOp.addErrCode)).2) = cs.getLast?) ∧
    (∀ (e2 : AppError) (s2 : CEStore), e2.AddErrCode s2 "" = (e2, s2)) := by
  obtain ⟨h1, h2⟩ := runOps_addCodes cs e s hv hne
  exact ⟨h1, h2, fun e2 s2 => by simp [AppError.AddErrCode]⟩

/-- C4, instantiated: two non-empty codes append in order and the second
becomes primary; the empty code is a no-op. -/
theorem addErrCode_runs_witness :
    (runOps (⟨none, 0, ["I"], 200, none⟩, ⟨[⟨"I", "", false⟩]⟩)
        (["X", "Y"].map AppOp.addErrCode)).1.GetErrCodes =
      ["I", "X", "Y"] ∧
    some ((runOps (⟨none, 0, ["I"], 200, none⟩, ⟨[⟨"I", "", false⟩]⟩)
        (["X", "Y"].map AppOp.addErrCode)).1.GetErrCode
      (runOps (⟨none, 0, ["I"], 200, none⟩, ⟨[⟨"I", "", false⟩]⟩)
        (["X", "Y"].map AppOp.addErrCode)).2) = some "Y" ∧
    (⟨none, 0, ["I"], 200, none⟩ : AppError).AddErrCode
      ⟨[⟨"I", "", false⟩]⟩ "" =
      (⟨none, 0, ["I"], 200, none⟩, ⟨[⟨"I", "", false⟩]⟩) :=
  ⟨(addErrCode_runs ⟨none, 0, ["I"], 200, none⟩ ⟨[⟨"I", "", false⟩]⟩
      ["X", "Y"] (by decide) (by decide)).1,
   (addErrCode_runs ⟨none, 0, ["I"], 200, none⟩ ⟨[⟨"I", "", false⟩]⟩
      ["X", "Y"] (by decide) (by decide)).2.1 (by decide),
   (addErrCode_runs ⟨none, 0, ["I"], 200, none⟩ ⟨[⟨"I", "", false⟩]⟩
      ["X", "Y"] (by decide) (by decide)).2.2
     ⟨none, 0, ["I"], 200, none⟩ ⟨[⟨"I", "", false⟩]⟩⟩
